import Mathlib

/-!
Shallow embedding of the x-minecraft-launcher pre-launch workaround plugins
(`pluginAMDGPUWorkaround.ts`, `pluginRTSSWorkaround.ts`) and proofs about
their startup condition gates, JVM-argument filtering, and environment
composition.

Conventions:
* JavaScript objects used as environment-variable maps are modelled as
  association lists (`EnvObj`) with JS object-spread update semantics
  (`envSet`, `envSpread`): setting an existing key updates it in place,
  a fresh key is appended.
* Optional / possibly-absent fields of the launch payload are `Option`s.
* Asynchronous probes are modelled by their resolved outcome: either a
  value or a failure (rejected promise / thrown error).
* A hook returns the mutated payload together with the list of log lines
  it emitted, in order.
-/

/-- Boolean test that `pat` is a prefix of `l` (character lists). -/
def charsStartWith : List Char → List Char → Bool
  | [], _ => true
  | _ :: _, [] => false
  | c :: cs, d :: ds => c == d && charsStartWith cs ds

/-- JS `String.prototype.startsWith`: case-sensitive exact prefix test on
the character sequence. -/
def jsStartsWith (s pre : String) : Bool :=
  charsStartWith pre.data s.data

/-- JS `String.prototype.toLowerCase` (over the character sequence). -/
def jsToLower (s : String) : String :=
  ⟨s.data.map Char.toLower⟩

/-- Boolean substring containment on character lists. -/
def charsContain (pat : List Char) : List Char → Bool
  | [] => charsStartWith pat []
  | d :: ds => charsStartWith pat (d :: ds) || charsContain pat ds

/-- JS `String.prototype.includes`. -/
def stringIncludes (s pattern : String) : Bool :=
  charsContain pattern.data s.data

/-- The three JVM system-property prefixes the AMD workaround removes
(`problematicProperties` in both AMD plugin versions). -/
def problematicProperties : List String :=
  ["-Djna.tmpdir=",
   "-Dorg.lwjgl.system.SharedLibraryExtractPath=",
   "-Dio.netty.native.workdir="]

/-- The keep-predicate of the argument filter:
`(arg) => !problematicProperties.some(prop => arg.startsWith(prop))`. -/
def keepPlainArg (props : List String) (arg : String) : Bool :=
  !(props.any fun prop => jsStartsWith arg prop)

/-- Flat argument filter:
`payload.options.extraJVMArgs.filter((arg) => !problematicProperties.some(...))`. -/
def filterPlainArgs (props : List String) (args : List String) : List String :=
  args.filter (keepPlainArg props)

/-- `removed = originalCount - payload.options.extraJVMArgs.length` after the
filter assignment. -/
def removedCount (props : List String) (args : List String) : Nat :=
  args.length - (filterPlainArgs props args).length

/-- An entry of `version.arguments.jvm`: either a plain string or a
rule-gated entry (the code only distinguishes `typeof arg === 'string'`). -/
inductive JVMArg where
  | str (s : String)
  | ruled (rules : List String) (value : List String)
deriving DecidableEq

/-- Keep-predicate for structured entries: strings go through the prefix
filter, rule-based arguments are kept as-is (`return true`). -/
def keepJVMArg (props : List String) : JVMArg → Bool
  | .str s => keepPlainArg props s
  | .ruled _ _ => true

/-- Structured filter over `payload.version.arguments.jvm`. -/
def filterVersionJVMArgs (props : List String) (args : List JVMArg) : List JVMArg :=
  args.filter (keepJVMArg props)

/-- Recognize rule-gated entries. -/
def JVMArg.isRuled : JVMArg → Bool
  | .str _ => false
  | .ruled _ _ => true

/-- Extract the plain string of a string entry. -/
def JVMArg.str? : JVMArg → Option String
  | .str s => some s
  | .ruled _ _ => none

/-- An environment-variable object: an association list with unique-key JS
object semantics via `envSet` / `envSpread`. -/
abbrev EnvObj := List (String × String)

/-- Does the object already have key `k`? -/
def envHasKey (m : EnvObj) (k : String) : Bool :=
  m.any fun kv => kv.1 == k

/-- JS property assignment: update the key in place if present (keeping its
position), otherwise append it. -/
def envSet (m : EnvObj) (k v : String) : EnvObj :=
  if envHasKey m k then m.map fun kv => if kv.1 == k then (k, v) else kv
  else m ++ [(k, v)]

/-- JS object spread `\x7b...a, ...b\x7d`: fold each property of `b` into `a`. -/
def envSpread (a b : EnvObj) : EnvObj :=
  b.foldl (fun acc kv => envSet acc kv.1 kv.2) a

/-- Property lookup on an environment object. -/
def envGet (m : EnvObj) (k : String) : Option String :=
  (m.find? fun kv => kv.1 == k).map fun kv => kv.2

/-- The seven fixed override variables of the RTSS workaround, in the order
they appear in the object literal. -/
def rtssOverrides : EnvObj :=
  [("RTSS_EXCLUDE", "1"),
   ("NoHook", "1"),
   ("NOHOOKEX", "1"),
   ("DISABLE_RTSS_LAYER", "1"),
   ("DISABLE_OVERLAY_INJECTION", "1"),
   ("DISABLE_VK_LAYER_AMD_switchable_graphics_1", "1"),
   ("DISABLE_VK_LAYER_NVIDIA_optimus_1", "1")]

/-- The environment composition
`\x7b...process.env, ...payload.options.extraExecOption.env, RTSS_EXCLUDE: '1', ...\x7d`:
inherited environment, then the prior spawn-option environment, then the
fixed overrides, later layers winning. -/
def composeEnv (processEnv prior overrides : EnvObj) : EnvObj :=
  envSpread (envSpread processEnv prior) overrides

/-- `side` of a launch. -/
inductive Side where
  | client
  | server
deriving DecidableEq

/-- `extraExecOption` spawn options; every field may be absent. -/
structure ExtraExecOption where
  shell : Option Bool := none
  detached : Option Bool := none
  cwd : Option String := none
  env : Option EnvObj := none
deriving DecidableEq

/-- `payload.options`. -/
structure LaunchOptions where
  extraJVMArgs : Option (List String) := none
  extraExecOption : Option ExtraExecOption := none
deriving DecidableEq

/-- `payload.version.arguments` (the `jvm` list may be absent). -/
structure VersionArguments where
  jvm : Option (List JVMArg) := none
deriving DecidableEq

/-- `payload.version` (the `arguments` property may be absent). -/
structure Version where
  arguments : Option VersionArguments := none
deriving DecidableEq

/-- The mutable launch payload a middleware hook receives. -/
structure LaunchPayload where
  side : Side
  options : LaunchOptions
  version : Version
deriving DecidableEq

/-- The launch input; only `gameDirectory` is used by these plugins. -/
structure LaunchInput where
  gameDirectory : String
deriving DecidableEq

/-- The RTSS middleware's `onBeforeLaunch`.  `rtssRunning` is the flag
captured at plugin startup, `processEnv` the inherited `process.env`.
Returns the mutated payload and the log lines emitted. -/
def rtssOnBeforeLaunch (rtssRunning : Bool) (processEnv : EnvObj)
    (input : LaunchInput) (payload : LaunchPayload) :
    LaunchPayload × List String :=
  if payload.side = .server then (payload, [])
  else
    let exec0 : ExtraExecOption :=
      match payload.options.extraExecOption with
      | none =>
        { shell := some false, detached := some true,
          cwd := some input.gameDirectory, env := some [] }
      | some e => e
    let env1 := composeEnv processEnv (exec0.env.getD []) rtssOverrides
    let exec1 : ExtraExecOption := { exec0 with env := some env1 }
    let logs :=
      ["RTSS Workaround middleware triggered",
       "Added overlay exclusion environment variables (count: 7)"] ++
      (if rtssRunning then ["RTSS is currently running - exclusion variables set"] else [])
    ({ payload with
        options := { payload.options with extraExecOption := some exec1 } },
     logs)

/-- The AMD middleware's `onBeforeLaunch` (the `pluginAMDGPUWorkaround.ts`
version, which also filters `version.arguments.jvm`). -/
def amdOnBeforeLaunch (_input : LaunchInput) (payload : LaunchPayload) :
    LaunchPayload × List String :=
  if payload.side = .server then (payload, [])
  else
    let extra0 := payload.options.extraJVMArgs.getD []
    let originalExtraCount := extra0.length
    let extra1 := filterPlainArgs problematicProperties extra0
    let removedExtra := originalExtraCount - extra1.length
    let versionStep : Version × List String :=
      match payload.version.arguments with
      | some va =>
        match va.jvm with
        | some jvmArgs =>
          let originalJvmCount := jvmArgs.length
          let jvm1 := filterVersionJVMArgs problematicProperties jvmArgs
          let removedJvm := originalJvmCount - jvm1.length
          ({ arguments := some { jvm := some jvm1 } },
           if 0 < removedJvm then
             ["Removed " ++ toString removedJvm ++
              " runtime native extraction properties from version JVM args"]
           else [])
        | none => (payload.version, [])
      | none => (payload.version, [])
    let logs :=
      ["AMD GPU Workaround middleware triggered"] ++
      versionStep.2 ++
      (if 0 < removedExtra then
        ["Removed " ++ toString removedExtra ++
         " runtime native extraction properties from extra JVM args"]
       else []) ++
      (match payload.version.arguments with
       | some va =>
         if removedExtra = 0 ∧ va.jvm = none then
           ["No problematic properties found to remove"]
         else []
       | none => [])
    ({ payload with
        options := { payload.options with extraJVMArgs := some extra1 },
        version := versionStep.1 },
     logs)

/-- Outcome of the awaited `exec('tasklist ...')` call. -/
inductive ExecProbeResult where
  | ok (stdout : String)
  | failure
deriving DecidableEq

/-- One entry of `info.gpuDevice`; `vendorId` may be absent. -/
structure GPUDevice where
  vendorId : Option Nat := none
deriving DecidableEq

/-- Outcome of the awaited `app.host.getGPUInfo('basic')` call: a rejected
promise, or a value whose `gpuDevice` property may be absent. -/
inductive GPUInfoResult where
  | ok (gpuDevice : Option (List GPUDevice))
  | failure
deriving DecidableEq

/-- Result of running the RTSS plugin's startup: the middleware names it
registered, the captured `rtssRunning` flag, and the startup log lines. -/
structure RTSSStartup where
  registered : List String
  rtssRunning : Bool
  logs : List String
deriving DecidableEq

/-- The RTSS plugin startup (`pluginRTSSWorkaround`): bail out off Windows;
probe the task list, swallowing a probe failure (`rtssRunning` stays
`false`, nothing logged); register the middleware unconditionally. -/
def pluginRTSSWorkaround (os : String) (probe : ExecProbeResult) : RTSSStartup :=
  if os ≠ "windows" then { registered := [], rtssRunning := false, logs := [] }
  else
    match probe with
    | .ok stdout =>
      let rtssRunning := stringIncludes (jsToLower stdout) "rtss.exe"
      { registered := ["rtss-workaround"],
        rtssRunning := rtssRunning,
        logs := if rtssRunning then
            ["Detected RTSS running. Applying compatibility workaround."]
          else [] }
    | .failure =>
      { registered := ["rtss-workaround"], rtssRunning := false, logs := [] }

/-- Result of running the AMD plugin's startup. -/
structure AMDStartup where
  registered : List String
  logs : List String
deriving DecidableEq

/-- The AMD plugin startup (`pluginAMDGPUWorkaround`): bail out off Windows;
await the GPU probe — a rejected probe rethrows out of the plugin
(`Except.error`); with `info?.gpuDevice || []`, register the middleware
iff some device has vendor id 4098. -/
def pluginAMDGPUWorkaround (os : String) (probe : GPUInfoResult) :
    Except Unit AMDStartup :=
  if os ≠ "windows" then .ok { registered := [], logs := [] }
  else
    match probe with
    | .failure => .error ()
    | .ok gpuDevice =>
      let gpus := gpuDevice.getD []
      let hasAMD := gpus.any fun gpu => gpu.vendorId == some 4098
      if !hasAMD then .ok { registered := [], logs := [] }
      else
        .ok { registered := ["amd-gpu-workaround"],
              logs := ["Detected AMD GPU on Windows. Applying workaround for driver version 25.10.2+ Sodium compatibility."] }

/-- Modelled from the spec: the `LaunchService` middleware pipeline
(`registerMiddleware` / hook invocation) is not part of the sources; the
spec says registered hooks run sequentially in registration order against
the same mutable request. We model it as a left fold over the hook list,
accumulating the emitted log lines. -/
def runPipeline
    (hooks : List (LaunchInput → LaunchPayload → LaunchPayload × List String))
    (input : LaunchInput) (payload : LaunchPayload) :
    LaunchPayload × List String :=
  hooks.foldl (fun acc hook =>
    let r := hook input acc.1
    (r.1, acc.2 ++ r.2)) (payload, [])

/-! ### Lemmas about the environment-object operations -/

theorem envGet_cons (kv : String × String) (m : EnvObj) (k : String) :
    envGet (kv :: m) k = if kv.1 == k then some kv.2 else envGet m k := by
  cases hc : kv.1 == k <;> simp [envGet, List.find?_cons, hc]

theorem envGet_eq_none_of_not_mem_keys (m : EnvObj) (k : String)
    (h : k ∉ m.map Prod.fst) : envGet m k = none := by
  have : m.find? (fun kv => kv.1 == k) = none := by
    rw [List.find?_eq_none]
    intro kv hkv
    simp only [beq_iff_eq]
    intro hk
    exact h (hk ▸ List.mem_map_of_mem Prod.fst hkv)
  simp [envGet, this]

theorem envGet_append (a b : EnvObj) (k : String) :
    envGet (a ++ b) k = (envGet a k).or (envGet b k) := by
  cases h : a.find? (fun kv => kv.1 == k) with
  | none => simp [envGet, List.find?_append, h]
  | some kv => simp [envGet, List.find?_append, h]

theorem envHasKey_iff (m : EnvObj) (k : String) :
    envHasKey m k = true ↔ k ∈ m.map Prod.fst := by
  simp only [envHasKey, List.any_eq_true, List.mem_map, beq_iff_eq]

theorem envGet_map_set_self (m : EnvObj) (k v : String)
    (h : envHasKey m k = true) :
    envGet (m.map fun kv => if kv.1 == k then (k, v) else kv) k = some v := by
  induction m with
  | nil => simp [envHasKey] at h
  | cons kv rest ih =>
    by_cases hk : kv.1 = k
    · simp [envGet_cons, hk]
    · have hrest : envHasKey rest k = true := by
        simpa [envHasKey, hk] using h
      simpa [envGet_cons, hk] using ih hrest

theorem envGet_map_set_ne (m : EnvObj) (k v k' : String) (h : k ≠ k') :
    envGet (m.map fun kv => if kv.1 == k then (k, v) else kv) k' = envGet m k' := by
  induction m with
  | nil => rfl
  | cons kv rest ih =>
    simp only [beq_iff_eq] at ih
    by_cases hk : kv.1 = k
    · simp [envGet_cons, hk, h, ih]
    · simp [envGet_cons, hk, ih]

theorem envGet_envSet_self (m : EnvObj) (k v : String) :
    envGet (envSet m k v) k = some v := by
  unfold envSet
  cases h : envHasKey m k with
  | true => simpa using envGet_map_set_self m k v h
  | false =>
    have hm : envGet m k = none := by
      apply envGet_eq_none_of_not_mem_keys
      rw [← envHasKey_iff]
      simp [h]
    simp [envGet_append, hm, envGet_cons]

theorem envGet_envSet_ne (m : EnvObj) (k v k' : String) (h : k ≠ k') :
    envGet (envSet m k v) k' = envGet m k' := by
  unfold envSet
  cases envHasKey m k with
  | true => simpa using envGet_map_set_ne m k v k' h
  | false =>
    have h1 : (k == k') = false := by simpa using h
    simp [envGet_append, envGet_cons, h1]
    cases envGet m k' <;> rfl

theorem envSpread_nil_right (a : EnvObj) : envSpread a [] = a := rfl

theorem envSpread_cons (a : EnvObj) (kv : String × String) (b : EnvObj) :
    envSpread a (kv :: b) = envSpread (envSet a kv.1 kv.2) b := rfl

theorem envGet_envSpread_of_none (a b : EnvObj) (k : String)
    (h : envGet b k = none) : envGet (envSpread a b) k = envGet a k := by
  induction b generalizing a with
  | nil => rfl
  | cons kv rest ih =>
    have hc : (kv.1 == k) = false := by
      cases hc : kv.1 == k with
      | true => simp [envGet_cons, hc] at h
      | false => rfl
    have hk : kv.1 ≠ k := by simpa using hc
    have hrest : envGet rest k = none := by simpa [envGet_cons, hc] using h
    rw [envSpread_cons, ih _ hrest, envGet_envSet_ne _ _ _ _ hk]

theorem envGet_envSpread_of_some (a b : EnvObj) (k v : String)
    (hb : (b.map Prod.fst).Nodup) (h : envGet b k = some v) :
    envGet (envSpread a b) k = some v := by
  induction b generalizing a with
  | nil => simp [envGet] at h
  | cons kv rest ih =>
    have hb' : kv.1 ∉ rest.map Prod.fst ∧ (rest.map Prod.fst).Nodup := by
      simpa [List.nodup_cons] using hb
    by_cases hk : kv.1 = k
    · have hv : kv.2 = v := by
        rw [envGet_cons] at h
        simpa [hk] using h
      have hrest : envGet rest k = none :=
        envGet_eq_none_of_not_mem_keys rest k (hk ▸ hb'.1)
      rw [envSpread_cons, envGet_envSpread_of_none _ _ _ hrest, hk,
        envGet_envSet_self]
      exact congrArg some hv
    · have hrest : envGet rest k = some v := by
        have hc : (kv.1 == k) = false := by simpa using hk
        simpa [envGet_cons, hc] using h
      rw [envSpread_cons]
      exact ih (envSet a kv.1 kv.2) hb'.2 hrest

/-! ### Lemmas about the argument filters -/

theorem charsStartWith_iff (pat l : List Char) :
    charsStartWith pat l = true ↔ pat <+: l := by
  induction pat generalizing l with
  | nil => simp [charsStartWith]
  | cons c cs ih =>
    cases l with
    | nil => simp [charsStartWith]
    | cons d ds =>
      rw [List.cons_prefix_cons]
      simp [charsStartWith, ih]

theorem jsStartsWith_iff (s pre : String) :
    jsStartsWith s pre = true ↔ pre.data <+: s.data :=
  charsStartWith_iff pre.data s.data

theorem keepPlainArg_iff (props : List String) (arg : String) :
    keepPlainArg props arg = true ↔ ∀ p ∈ props, ¬(p.data <+: arg.data) := by
  unfold keepPlainArg
  simp only [Bool.not_eq_true', List.any_eq_false]
  refine forall₂_congr fun p _ => ?_
  rw [← jsStartsWith_iff]

/-! ### Claim theorems: argument sanitizer -/

/-- C4: for every flat argument sequence and every set of disallowed
prefixes, the filter yields exactly the entries of which no disallowed
prefix is a case-sensitive exact character-sequence prefix, as a
subsequence in original order; the removed count is the input length minus
the output length; and the concrete scenario
`["-Djna.tmpdir=/x", "-Xmx2G"]` against `\x7b"-Djna.tmpdir="\x7d` yields
`["-Xmx2G"]` with removed count 1. -/
theorem flat_sanitizer_correct (props args : List String) :
    filterPlainArgs props args =
      args.filter (fun a => decide (∀ p ∈ props, ¬(p.data <+: a.data))) ∧
    (filterPlainArgs props args).Sublist args ∧
    removedCount props args =
      args.length - (filterPlainArgs props args).length ∧
    filterPlainArgs ["-Djna.tmpdir="] ["-Djna.tmpdir=/x", "-Xmx2G"] =
      ["-Xmx2G"] ∧
    removedCount ["-Djna.tmpdir="] ["-Djna.tmpdir=/x", "-Xmx2G"] = 1 := by
  refine ⟨?_, List.filter_sublist _, rfl, by decide, by decide⟩
  apply List.filter_congr
  intro a _
  rw [Bool.eq_iff_iff, keepPlainArg_iff]
  simp

/-- C8: the flat sanitizer is idempotent: re-filtering an already filtered
sequence returns it unchanged with removed count 0, so filtering twice
equals filtering once. -/
theorem sanitizer_idempotent (props args : List String) :
    filterPlainArgs props (filterPlainArgs props args) =
      filterPlainArgs props args ∧
    removedCount props (filterPlainArgs props args) = 0 := by
  have h : filterPlainArgs props (filterPlainArgs props args) =
      filterPlainArgs props args := by
    unfold filterPlainArgs
    rw [List.filter_filter]
    apply List.filter_congr
    intro a _
    simp
  refine ⟨h, ?_⟩
  unfold removedCount
  rw [h, Nat.sub_self]

/-- C3: the structured filter preserves order (output is a subsequence of
the input), passes every rule-gated entry through unremoved and unaltered,
and on the string-typed entries acts as exactly the flat prefix filter. -/
theorem structured_sanitizer_correct (props : List String) (args : List JVMArg) :
    (filterVersionJVMArgs props args).Sublist args ∧
    (filterVersionJVMArgs props args).filter JVMArg.isRuled =
      args.filter JVMArg.isRuled ∧
    (filterVersionJVMArgs props args).filterMap JVMArg.str? =
      filterPlainArgs props (args.filterMap JVMArg.str?) := by
  refine ⟨List.filter_sublist _, ?_, ?_⟩
  · unfold filterVersionJVMArgs
    rw [List.filter_filter]
    apply List.filter_congr
    intro a _
    cases a with
    | str s => simp [JVMArg.isRuled]
    | ruled r v => simp [JVMArg.isRuled, keepJVMArg]
  · induction args with
    | nil => rfl
    | cons a rest ih =>
      cases a with
      | str s =>
        cases hk : keepPlainArg props s with
        | true =>
          simp [filterVersionJVMArgs, filterPlainArgs, keepJVMArg,
            List.filter_cons, List.filterMap_cons, JVMArg.str?, hk] at ih ⊢
          exact ih
        | false =>
          simp [filterVersionJVMArgs, filterPlainArgs, keepJVMArg,
            List.filter_cons, List.filterMap_cons, JVMArg.str?, hk] at ih ⊢
          exact ih
      | ruled r v =>
        simp [filterVersionJVMArgs, filterPlainArgs, keepJVMArg,
          List.filter_cons, List.filterMap_cons, JVMArg.str?] at ih ⊢
        exact ih

/-! ### Claim theorems: environment composition -/

/-- C5: in the composed environment, for every key the override layer wins
when it has the key; otherwise the prior spawn-option environment wins when
it has the key; otherwise the inherited environment's value (or absence)
passes through unchanged. This covers all three pairwise collision
combinations and single-layer pass-through. -/
theorem composeEnv_precedence (processEnv prior overrides : EnvObj)
    (k : String)
    (hq : (prior.map Prod.fst).Nodup)
    (ho : (overrides.map Prod.fst).Nodup) :
    (∀ v, envGet overrides k = some v →
      envGet (composeEnv processEnv prior overrides) k = some v) ∧
    (envGet overrides k = none → ∀ v, envGet prior k = some v →
      envGet (composeEnv processEnv prior overrides) k = some v) ∧
    (envGet overrides k = none → envGet prior k = none →
      envGet (composeEnv processEnv prior overrides) k =
        envGet processEnv k) := by
  unfold composeEnv
  refine ⟨?_, ?_, ?_⟩
  · intro v h
    exact envGet_envSpread_of_some _ _ _ _ ho h
  · intro h0 v h1
    rw [envGet_envSpread_of_none _ _ _ h0]
    exact envGet_envSpread_of_some _ _ _ _ hq h1
  · intro h0 h1
    rw [envGet_envSpread_of_none _ _ _ h0, envGet_envSpread_of_none _ _ _ h1]

/-- Witness for C5 at concrete layers where the key collides in all three. -/
theorem composeEnv_precedence_witness :
    envGet (composeEnv [("A", "p")] [("A", "q")] [("A", "o")]) "A" =
      some "o" :=
  (composeEnv_precedence [("A", "p")] [("A", "q")] [("A", "o")] "A"
    (by decide) (by decide)).1 "o" (by decide)

/-- C6: on a client launch whose spawn options were absent, the RTSS hook
builds the environment by seeding from the inherited environment and
applying the overrides; inherited variables not overridden pass through
unchanged; and the scenario with inherited `PATH=/bin` and override
`RTSS_EXCLUDE=1` yields exactly both bindings. -/
theorem rtss_seeds_inherited_env (r : Bool) (processEnv : EnvObj)
    (input : LaunchInput) (payload : LaunchPayload)
    (hside : payload.side = Side.client)
    (habs : payload.options.extraExecOption = none) :
    (rtssOnBeforeLaunch r processEnv input payload).1.options.extraExecOption =
      some { shell := some false, detached := some true,
             cwd := some input.gameDirectory,
             env := some (composeEnv processEnv [] rtssOverrides) } ∧
    (∀ k, envGet rtssOverrides k = none →
      envGet (composeEnv processEnv [] rtssOverrides) k =
        envGet processEnv k) ∧
    composeEnv [("PATH", "/bin")] [] [("RTSS_EXCLUDE", "1")] =
      [("PATH", "/bin"), ("RTSS_EXCLUDE", "1")] := by
  refine ⟨?_, ?_, by decide⟩
  · simp [rtssOnBeforeLaunch, hside, habs]
  · intro k hk
    unfold composeEnv
    rw [envGet_envSpread_of_none _ _ _ hk, envSpread_nil_right]

/-- Witness for C6 on a concrete client payload with absent spawn options. -/
theorem rtss_seeds_inherited_env_witness :
    (rtssOnBeforeLaunch false [("PATH", "/bin")] { gameDirectory := "/g" }
        { side := Side.client, options := {}, version := {} }).1.options.extraExecOption =
      some { shell := some false, detached := some true, cwd := some "/g",
             env := some (composeEnv [("PATH", "/bin")] [] rtssOverrides) } :=
  (rtss_seeds_inherited_env false [("PATH", "/bin")] { gameDirectory := "/g" }
    { side := Side.client, options := {}, version := {} } rfl rfl).1

/-- C10: on a client launch, when spawn options were absent the RTSS hook
also sets `shell := false`, `detached := true` and the working directory to
the request's game directory; when they were present those three fields
are left unchanged. -/
theorem rtss_spawn_option_fields (r : Bool) (processEnv : EnvObj)
    (input : LaunchInput) (payload : LaunchPayload)
    (hside : payload.side = Side.client) :
    (payload.options.extraExecOption = none →
      ∃ e, (rtssOnBeforeLaunch r processEnv input payload).1.options.extraExecOption =
          some e ∧
        e.shell = some false ∧ e.detached = some true ∧
        e.cwd = some input.gameDirectory) ∧
    (∀ e0, payload.options.extraExecOption = some e0 →
      ∃ e, (rtssOnBeforeLaunch r processEnv input payload).1.options.extraExecOption =
          some e ∧
        e.shell = e0.shell ∧ e.detached = e0.detached ∧ e.cwd = e0.cwd) := by
  constructor
  · intro habs
    refine ⟨{ shell := some false, detached := some true,
              cwd := some input.gameDirectory,
              env := some (composeEnv processEnv [] rtssOverrides) },
            ?_, rfl, rfl, rfl⟩
    simp [rtssOnBeforeLaunch, hside, habs]
  · intro e0 h0
    refine ⟨{ e0 with
              env := some (composeEnv processEnv (e0.env.getD []) rtssOverrides) },
            ?_, rfl, rfl, rfl⟩
    simp [rtssOnBeforeLaunch, hside, h0]

/-- Witness for C10 with absent and with present spawn options. -/
theorem rtss_spawn_option_fields_witness :
    ∃ e, (rtssOnBeforeLaunch false [] { gameDirectory := "/g" }
        { side := Side.client, options := {}, version := {} }).1.options.extraExecOption =
        some e ∧
      e.shell = some false ∧ e.detached = some true ∧ e.cwd = some "/g" :=
  (rtss_spawn_option_fields false [] { gameDirectory := "/g" }
    { side := Side.client, options := {}, version := {} } rfl).1 rfl

/-! ### Claim theorems: hook robustness and side gating -/

/-- C9: a client-side hook invocation tolerates absent optional fields:
an absent `extraJVMArgs` is initialized to the empty list (then filtered,
still empty), and an absent `extraExecOption` is initialized to a default
whose environment is the composed one; in both cases the hook completes. -/
theorem hooks_tolerate_absent_fields (r : Bool) (processEnv : EnvObj)
    (input : LaunchInput) (payload : LaunchPayload)
    (hside : payload.side = Side.client) :
    (payload.options.extraJVMArgs = none →
      (amdOnBeforeLaunch input payload).1.options.extraJVMArgs = some []) ∧
    (payload.options.extraExecOption = none →
      ∃ e, (rtssOnBeforeLaunch r processEnv input payload).1.options.extraExecOption =
          some e ∧
        e.env = some (composeEnv processEnv [] rtssOverrides)) := by
  constructor
  · intro habs
    simp [amdOnBeforeLaunch, hside, habs, filterPlainArgs]
  · intro habs
    refine ⟨{ shell := some false, detached := some true,
              cwd := some input.gameDirectory,
              env := some (composeEnv processEnv [] rtssOverrides) },
            ?_, rfl⟩
    simp [rtssOnBeforeLaunch, hside, habs]

/-- Witness for C9 on a concrete client payload with both fields absent. -/
theorem hooks_tolerate_absent_fields_witness :
    (amdOnBeforeLaunch { gameDirectory := "/g" }
      { side := Side.client, options := {}, version := {} }).1.options.extraJVMArgs =
      some [] :=
  (hooks_tolerate_absent_fields false [] { gameDirectory := "/g" }
    { side := Side.client, options := {}, version := {} } rfl).1 rfl

/-- C7: on a server-side request each client-only hook returns the payload
unchanged and emits no log line, and the pipeline with both hooks
registered leaves the request and the log both untouched. -/
theorem server_side_noop (r : Bool) (processEnv : EnvObj)
    (input : LaunchInput) (payload : LaunchPayload)
    (hside : payload.side = Side.server) :
    amdOnBeforeLaunch input payload = (payload, []) ∧
    rtssOnBeforeLaunch r processEnv input payload = (payload, []) ∧
    runPipeline [amdOnBeforeLaunch, rtssOnBeforeLaunch r processEnv]
      input payload = (payload, []) := by
  have h1 : amdOnBeforeLaunch input payload = (payload, []) := by
    simp [amdOnBeforeLaunch, hside]
  have h2 : rtssOnBeforeLaunch r processEnv input payload = (payload, []) := by
    simp [rtssOnBeforeLaunch, hside]
  refine ⟨h1, h2, ?_⟩
  simp [runPipeline, h1, h2]

/-- Witness for C7 on a concrete server-side payload. -/
theorem server_side_noop_witness :
    runPipeline [amdOnBeforeLaunch, rtssOnBeforeLaunch false []]
      { gameDirectory := "/g" }
      { side := Side.server, options := {}, version := {} } =
      ({ side := Side.server, options := {}, version := {} }, []) :=
  (server_side_noop false [] { gameDirectory := "/g" }
    { side := Side.server, options := {}, version := {} } rfl).2.2

/-! ### Claim theorems: startup condition gates -/

/-- C1 counterexample: on Windows, after a failed probe the RTSS plugin
still registers its middleware — the pipeline's hook set is NOT unchanged —
and the failure is not logged. -/
theorem rtss_registered_despite_probe_failure :
    (pluginRTSSWorkaround "windows" ExecProbeResult.failure).registered ≠ [] ∧
    (pluginRTSSWorkaround "windows" ExecProbeResult.failure).registered =
      ["rtss-workaround"] ∧
    (pluginRTSSWorkaround "windows" ExecProbeResult.failure).logs = [] := by
  decide

/-- C1 amended: a probe answer of unexpected shape resolves the AMD patch
to not applicable with nothing registered and no error propagated; a
rejected AMD probe registers nothing but propagates out of the plugin;
the RTSS patch swallows its probe failure without logging it and registers
its hook regardless, merely treating RTSS as not detected. -/
theorem probe_failure_behaviour :
    pluginAMDGPUWorkaround "windows" (GPUInfoResult.ok none) =
      Except.ok { registered := [], logs := [] } ∧
    pluginAMDGPUWorkaround "windows" GPUInfoResult.failure =
      Except.error () ∧
    pluginRTSSWorkaround "windows" ExecProbeResult.failure =
      { registered := ["rtss-workaround"], rtssRunning := false,
        logs := [] } :=
  ⟨rfl, rfl, by decide⟩

/-- C2 counterexample: on Windows with a successful probe that does NOT
find the overlay executable, the RTSS hook is registered anyway: the probe
result does not gate registration. -/
theorem rtss_registered_without_trigger :
    (pluginRTSSWorkaround "windows" (ExecProbeResult.ok "")).rtssRunning =
      false ∧
    (pluginRTSSWorkaround "windows" (ExecProbeResult.ok "")).registered =
      ["rtss-workaround"] := by
  decide

/-- C2 amended: the AMD hook is registered iff the platform is Windows and
the successful probe reports a device with AMD vendor id 4098; the RTSS
hook is registered iff the platform is Windows, for every probe outcome —
the RTSS probe result only selects the captured flag and log output. -/
theorem registration_gates (os : String) (gd : Option (List GPUDevice))
    (probe : ExecProbeResult) :
    (pluginRTSSWorkaround os probe).registered =
      (if os = "windows" then ["rtss-workaround"] else []) ∧
    pluginAMDGPUWorkaround os (GPUInfoResult.ok gd) =
      Except.ok
        (if os = "windows" ∧
            ((gd.getD []).any fun gpu => gpu.vendorId == some 4098) = true
         then
          { registered := ["amd-gpu-workaround"],
            logs := ["Detected AMD GPU on Windows. Applying workaround for driver version 25.10.2+ Sodium compatibility."] }
         else { registered := [], logs := [] }) := by
  constructor
  · by_cases h : os = "windows"
    · cases probe <;> simp [pluginRTSSWorkaround, h]
    · simp [pluginRTSSWorkaround, h]
  · by_cases h : os = "windows"
    · cases hA : (gd.getD []).any fun gpu => gpu.vendorId == some 4098 <;>
        simp [pluginAMDGPUWorkaround, h, hA]
    · simp [pluginAMDGPUWorkaround, h]
